import Mathlib

/-!
Verification of the stack-guard object model of `tlua` (`src/tlua/src/object.rs`).

The Lua virtual machine is the external collaborator of the layer under
study; it is modelled here by an explicit state (`LuaSt`): a value stack, a
heap of tables, and the registry that pins values under integer handles.
The functions of `mod imp` (`try_get`, `try_checked_set`, `protected_call`,
`call`) and the trait-level wrappers (`Index.call_method`, `NewIndex.set`,
`NewIndex.checked_set`, the `impl_object!` conversions) are translated
line by line into state-passing Lean functions.  Rust panics are modelled
by the `RustOut.panic` constructor.  A ghost event log (`Ev`) records every
C-API primitive the layer invokes, so ordering claims are observable.
-/

/-- An opaque stand-in for a 64-bit floating point payload: the layer never
computes with floats, it only moves them through the VM, so only the bit
pattern matters. -/
structure F64 where
  bits : Nat
deriving DecidableEq, Repr

/-- A dynamically-typed VM value.  Tables and functions live in a heap and
are referenced by id, matching Lua's reference semantics. -/
inductive LuaValue where
  | nil
  | boolean (b : Bool)
  | number (n : Int)
  | float (x : F64)
  | str (s : String)
  | table (id : Nat)
  | func (id : Nat)
deriving DecidableEq, Repr

/-- The name Lua uses for a value's type in error messages. -/
def LuaValue.typename : LuaValue → String
  | .nil => "nil"
  | .boolean _ => "boolean"
  | .number _ => "number"
  | .float _ => "number"
  | .str _ => "string"
  | .table _ => "table"
  | .func _ => "function"

/-- A Lua table: an association list of non-nil keys to non-nil values plus
an optional metatable (the id of another table). -/
structure Table where
  fields : List (LuaValue × LuaValue)
  meta : Option Nat
deriving DecidableEq, Repr

/-- First-match association lookup (used for the heap, the registry and
table fields). -/
def assocFind {α β : Type} [DecidableEq α] : List (α × β) → α → Option β
  | [], _ => none
  | p :: rest, k => if p.1 = k then some p.2 else assocFind rest k

/-- Update every entry of an association list carrying the given key. -/
def assocUpdate {α β : Type} [DecidableEq α] (l : List (α × β)) (k : α) (v : β) :
    List (α × β) :=
  l.map fun p => if p.1 = k then (k, v) else p

/-- `lua_rawget`: direct field lookup, `nil` when absent. -/
def Table.rawget (t : Table) (k : LuaValue) : LuaValue :=
  (assocFind t.fields k).getD .nil

/-- `lua_rawset`: direct field update; assigning `nil` erases the key. -/
def Table.rawset (t : Table) (k v : LuaValue) : Table :=
  if v = .nil then
    { t with fields := t.fields.filter fun p => p.1 ≠ k }
  else
    { t with fields := (k, v) :: t.fields.filter fun p => p.1 ≠ k }

/-- Ghost events: one per C-API primitive the layer invokes, recorded in
order so that staging-order claims are observable. -/
inductive Ev where
  | push (v : LuaValue)
  | pushvalue (i : Nat)
  | ref (r : Int)
  | unref (r : Int)
  | regGet (r : Int)
  | getTable
  | setTable
  | pcallEnter
deriving DecidableEq, Repr

/-- The whole VM state: the shared value stack (head = top), the table
heap, the registry pinning values under integer handles, the next fresh
registry handle, and the ghost event log. -/
structure LuaSt where
  stack : List LuaValue
  heap : List (Nat × Table)
  registry : List (Int × LuaValue)
  nextRef : Nat
  log : List Ev
deriving DecidableEq, Repr

def LuaSt.gettop (s : LuaSt) : Nat := s.stack.length

def LuaSt.push (s : LuaSt) (v : LuaValue) : LuaSt := { s with stack := v :: s.stack }

def LuaSt.popN (s : LuaSt) (n : Nat) : LuaSt := { s with stack := s.stack.drop n }

def LuaSt.addLog (s : LuaSt) (e : Ev) : LuaSt := { s with log := s.log ++ [e] }

/-- The stack slot `n` positions below the top (`nil` when out of range). -/
def stkNth : List LuaValue → Nat → LuaValue
  | [], _ => .nil
  | v :: _, 0 => v
  | _ :: rest, n + 1 => stkNth rest n

/-- The value at a 1-based absolute stack position (bottom = 1). -/
def LuaSt.absGet (s : LuaSt) (i : Nat) : LuaValue :=
  stkNth s.stack (s.stack.length - i)

/-- Resolve an acceptable index: positive = absolute, negative = from the
top (`-1` is the top of the stack). -/
def LuaSt.relGet (s : LuaSt) (i : Int) : LuaValue :=
  if i < 0 then stkNth s.stack ((-i).toNat - 1)
  else s.absGet i.toNat

/-- `lua_settop` to an absolute depth: drops slots from the top, or pads
with `nil` when raising the top. -/
def LuaSt.setTopTo (s : LuaSt) (d : Nat) : LuaSt :=
  if d ≤ s.stack.length then { s with stack := s.stack.drop (s.stack.length - d) }
  else { s with stack := List.replicate (d - s.stack.length) .nil ++ s.stack }

/-- Number of live registry handles. -/
def LuaSt.regLive (s : LuaSt) : Nat := s.registry.length

def LUA_ERRRUN : Int := 2
def LUA_ERRMEM : Int := 4
def LUA_REFNIL : Int := -1

/-- `raw_lua.push_one(v)` for an infallible push: places the value on the
stack. -/
def api_push (v : LuaValue) (s : LuaSt) : LuaSt := (s.push v).addLog (.push v)

/-- `lua_pushvalue(l, i)`: pushes a copy of the value at absolute index `i`. -/
def api_pushvalue (i : Nat) (s : LuaSt) : LuaSt :=
  (s.push (s.absGet i)).addLog (.pushvalue i)

/-- `luaL_ref(l, LUA_REGISTRYINDEX)`: pops the top value and pins it in the
registry under a fresh handle; a `nil` top yields `LUA_REFNIL` and pins
nothing. -/
def luaL_ref (s : LuaSt) : Int × LuaSt :=
  match s.stack with
  | [] => (LUA_REFNIL, s.addLog (.ref LUA_REFNIL))
  | v :: rest =>
    if v = .nil then
      (LUA_REFNIL, { s with stack := rest }.addLog (.ref LUA_REFNIL))
    else
      ((s.nextRef : Int),
        { s with
          stack := rest
          registry := ((s.nextRef : Int), v) :: s.registry
          nextRef := s.nextRef + 1 }.addLog (.ref (s.nextRef : Int)))

/-- `luaL_unref(l, LUA_REGISTRYINDEX, r)`: releases the handle; negative
handles (`LUA_REFNIL`, `LUA_NOREF`) are ignored. -/
def luaL_unref (r : Int) (s : LuaSt) : LuaSt :=
  if r < 0 then s.addLog (.unref r)
  else { s with registry := s.registry.filter fun p => p.1 ≠ r }.addLog (.unref r)

/-- `lua_rawgeti(l, LUA_REGISTRYINDEX, r)`: pushes the value pinned under
handle `r` (or `nil`). -/
def regGet (r : Int) (s : LuaSt) : LuaSt :=
  (s.push ((assocFind s.registry r).getD .nil)).addLog (.regGet r)

/-- The `__index` / `__newindex` handler of a value: present only for a
table with a metatable carrying the field. -/
def metaHandler (s : LuaSt) (v : LuaValue) (name : String) : LuaValue :=
  match v with
  | .table id =>
    match assocFind s.heap id with
    | some t =>
      match t.meta with
      | some mid =>
        match assocFind s.heap mid with
        | some mt => mt.rawget (.str name)
        | none => .nil
      | none => .nil
    | none => .nil
  | _ => .nil

/-- `lua_gettable` index resolution: raw lookup first, then the `__index`
chain (table handlers only), bounded like Lua's own metamethod loop limit. -/
def gettableLoop (s : LuaSt) (fuel : Nat) (target k : LuaValue) :
    Except String LuaValue :=
  match fuel with
  | 0 => .error "loop in gettable"
  | fuel + 1 =>
    match target with
    | .table id =>
      match assocFind s.heap id with
      | some t =>
        let v := t.rawget k
        if v ≠ .nil then .ok v
        else
          let h := metaHandler s (.table id) "__index"
          if h = .nil then .ok .nil
          else gettableLoop s fuel h k
      | none => .error "attempt to index a table value"
    | v => .error ("attempt to index a " ++ v.typename ++ " value")

/-- Raw assignment guarded by Lua's nil-key check. -/
def rawsetChecked (s : LuaSt) (id : Nat) (t : Table) (k v : LuaValue) :
    Except String LuaSt :=
  if k = .nil then .error "table index is nil"
  else .ok { s with heap := assocUpdate s.heap id (t.rawset k v) }

/-- `lua_settable` assignment resolution: direct when the key is already
present or no `__newindex` handler exists, else along the handler chain
(table handlers only), bounded like Lua's own loop limit. -/
def settableLoop (s : LuaSt) (fuel : Nat) (target k v : LuaValue) :
    Except String LuaSt :=
  match fuel with
  | 0 => .error "loop in settable"
  | fuel + 1 =>
    match target with
    | .table id =>
      match assocFind s.heap id with
      | some t =>
        if t.rawget k ≠ .nil then rawsetChecked s id t k v
        else
          let h := metaHandler s (.table id) "__newindex"
          if h = .nil then rawsetChecked s id t k v
          else settableLoop s fuel h k v
      | none => .error "attempt to index a table value"
    | w => .error ("attempt to index a " ++ w.typename ++ " value")

/-- `lua_gettable(l, i)`: the key is at the top, the target at index `i`;
pops the key and pushes the looked-up value, or raises. -/
def lua_gettable (s : LuaSt) (i : Int) : Except (String × LuaSt) LuaSt :=
  let target := s.relGet i
  match s.stack with
  | k :: rest =>
    let s1 := { s with stack := rest }.addLog .getTable
    match gettableLoop s1 100 target k with
    | .ok v => .ok (s1.push v)
    | .error m => .error (m, s1)
  | [] => .error ("stack underflow", s)

/-- `lua_settable(l, i)`: the value is at the top, the key below it, the
target at index `i`; pops key and value, or raises. -/
def lua_settable (s : LuaSt) (i : Int) : Except (String × LuaSt) LuaSt :=
  let target := s.relGet i
  match s.stack with
  | v :: k :: rest =>
    let s1 := { s with stack := rest }.addLog .setTable
    match settableLoop s1 100 target k v with
    | .ok s2 => .ok s2
    | .error m => .error (m, s1)
  | _ => .error ("stack underflow", s)

/-- `lua_tostring` coercion applied to a single value. -/
def luaToString : LuaValue → Option String
  | .str s => some s
  | .number n => some (toString n)
  | _ => none

/-- `ToString::lua_read(PushGuard::new(lua, 1))`: reads the top of the
stack as a string and consumes the one-slot guard (popping the slot). -/
def readTopString (s : LuaSt) : Option (String × LuaSt) :=
  match s.stack with
  | v :: rest => (luaToString v).map fun m => (m, { s with stack := rest })
  | [] => none

/-- Outcome of host code running inside the VM (the closure handed to a
protected call): normal completion, a VM-level raise carrying the error
message, or memory exhaustion inside the VM's allocator. -/
inductive VmOutcome (R : Type) where
  | ok (r : R) (s : LuaSt)
  | raise (msg : String) (s : LuaSt)
  | oom

/-- Result of a Rust code path: a value, or a `panic!` with its message. -/
inductive RustOut (α : Type) where
  | ok (a : α)
  | panic (msg : String)
deriving DecidableEq, Repr

/-- An error of the layer as surfaced to callers (`LuaError`):
`ExecutionError` carries the VM's message text, `WrongType` reports a
result that could not be decoded into the requested host type. -/
inductive LuaError where
  | ExecutionError (msg : String)
  | WrongType
deriving DecidableEq, Repr

/-- `lua_cpcall(l, trampoline, ud)`: runs the closure under protection.
Status `0` discards whatever the closure left on the stack; a raise
unwinds the stack to the entry depth and pushes the error message; memory
exhaustion yields `LUA_ERRMEM`.  The third component models `ud.out`: set
exactly when the trampoline completed. -/
def lua_cpcall {R : Type} (s : LuaSt) (f : LuaSt → VmOutcome R) :
    Int × LuaSt × Option R :=
  let d := s.gettop
  match f (s.addLog .pcallEnter) with
  | .ok r s1 => (0, s1.setTopTo d, some r)
  | .raise m s1 => (LUA_ERRRUN, (s1.setTopTo d).push (.str m), none)
  | .oom => (LUA_ERRMEM, (s.addLog .pcallEnter).setTopTo d, none)

/-- The status-code dispatch of `imp::protected_call`, in source order:
`0` continues (panicking if the trampoline left no output), `LUA_ERRMEM`
panics, `LUA_ERRRUN` reads the message off the top of the stack and
returns it as an `ExecutionError`, any other code panics. -/
def pcallDispatch {R : Type} (rc : Int) (s : LuaSt) (out : Option R) :
    RustOut (Except LuaError R × LuaSt) :=
  if rc = 0 then
    match out with
    | some r => .ok (.ok r, s)
    | none => .panic "if trampoline succeeded the value is set"
  else if rc = LUA_ERRMEM then .panic "lua_cpcall returned LUA_ERRMEM"
  else if rc = LUA_ERRRUN then
    match readTopString s with
    | some (m, s1) => .ok (.error (.ExecutionError m), s1)
    | none => .panic "cannot find error message at the top of the Lua stack"
  else .panic "Unknown error code returned by lua_cpcall"

/-- `imp::protected_call`: executes a host closure under `lua_cpcall` and
translates the VM's status code through `pcallDispatch`. -/
def protected_call {R : Type} (s : LuaSt) (f : LuaSt → VmOutcome R) :
    RustOut (Except LuaError R × LuaSt) :=
  let res := lua_cpcall s f
  pcallDispatch res.1 res.2.1 res.2.2

/-- The closure `imp::try_get` runs under protection: push the indexable
(handle T) and the key (handle K) back from the registry, perform the
native lookup, pin the result (handle V) and hand the new handle out. -/
def tryGetBody (table_ref index_ref : Int) (l : LuaSt) : VmOutcome Int :=
  -- push indexable, push index, pop index push value, save value
  let l2 := regGet index_ref (regGet table_ref l)
  match lua_gettable l2 (-2) with
  | .error (m, le) => .raise m le
  | .ok l3 =>
    let vr := luaL_ref l3
    .ok vr.1 vr.2

/-- `imp::try_get`: stages the key (handle K) and a copy of the indexable
(handle T) in the registry, performs the native lookup inside a protected
call pinning the result (handle V), reads the result back through the
caller's one-slot guard, and releases the three handles — except on the
protected-call failure path, which returns early.  `dec` models
`R::lua_read` on the one-slot guard: reading the value at the top of the
state it is given; a failed read consumes the guard (pops the slot). -/
def imp_try_get {ρ : Type} (dec : LuaSt → Option ρ) (s0 : LuaSt)
    (this_index : Nat) (key : LuaValue) :
    RustOut (Except LuaError ρ × LuaSt) :=
  -- push index onto the stack, move it into registry
  let s1 := api_push key s0
  let kr := luaL_ref s1
  let index_ref := kr.1
  -- push indexable onto the stack, move it into registry
  let s3 := api_pushvalue this_index kr.2
  let tr := luaL_ref s3
  let table_ref := tr.1
  match protected_call tr.2 (tryGetBody table_ref index_ref) with
  | .panic m => .panic m
  | .ok (.error e, s5) => .ok (.error e, s5)
  | .ok (.ok value_ref, s5) =>
    -- move value from registry to stack, read it through a 1-slot guard
    let s6 := regGet value_ref s5
    let res : Except LuaError ρ × LuaSt :=
      match dec s6 with
      | some r => (.ok r, s6)
      | none => (.error .WrongType, s6.popN 1)
    -- unref temporaries
    let s9 := luaL_unref table_ref (luaL_unref index_ref (luaL_unref value_ref res.2))
    .ok (res.1, s9)

/-- Error returned by `NewIndex::checked_set`: pushing the key or the
value itself failed. -/
inductive CheckedSetError (K V : Type) where
  | KeyPushError (e : K)
  | ValuePushError (e : V)
deriving DecidableEq, Repr

/-- `TryCheckedSetError<K, V> = Result<CheckedSetError<K, V>, LuaError>`:
`.ok` carries a staging (push) failure, `.error` a VM-raised one. -/
def TryCheckedSetError (K V : Type) := Except LuaError (CheckedSetError K V)

/-- The closure `imp::try_checked_set` runs under protection: push the
target (handle T), the key (handle K) and the value (handle V) back from
the registry and perform the native assignment. -/
def trySetBody (table_ref index_ref value_ref : Int) (l : LuaSt) : VmOutcome Unit :=
  -- push indexable, push index, push value, assign
  let l3 := regGet value_ref (regGet index_ref (regGet table_ref l))
  match lua_settable l3 (-3) with
  | .error (m, le) => .raise m le
  | .ok l4 => .ok () l4

/-- `imp::try_checked_set`: stages value (handle V), key (handle K) and a
copy of the target (handle T) in the registry, performs the native
assignment inside a protected call, and releases the three handles —
except on the early-return paths (a key push failure after the value was
pinned, or a protected-call failure).  A fallible host push is modelled by
an `Except`: `.error` is the typed push failure, `.ok` the pushed value. -/
def imp_try_checked_set {K V : Type} (s0 : LuaSt) (this_index : Nat)
    (index : Except K LuaValue) (value : Except V LuaValue) :
    RustOut (Except (TryCheckedSetError K V) Unit × LuaSt) :=
  match value with
  | .error e => .ok (.error (.ok (.ValuePushError e)), s0)
  | .ok vv =>
    -- push value onto the stack, move it into registry
    let s1 := api_push vv s0
    let vr := luaL_ref s1
    let value_ref := vr.1
    match index with
    | .error e => .ok (.error (.ok (.KeyPushError e)), vr.2)
    | .ok kv =>
      -- push index onto the stack, move it into registry
      let s2 := api_push kv vr.2
      let kr := luaL_ref s2
      let index_ref := kr.1
      -- push indexable onto the stack, move it into registry
      let s3 := api_pushvalue this_index kr.2
      let tr := luaL_ref s3
      let table_ref := tr.1
      match protected_call tr.2 (trySetBody table_ref index_ref value_ref) with
      | .panic m => .panic m
      | .ok (.error e, s7) => .ok (.error (.error e), s7)
      | .ok (.ok _, s7) =>
        -- unref temporaries
        let s10 := luaL_unref table_ref (luaL_unref index_ref (luaL_unref value_ref s7))
        .ok (.ok (), s10)

/-- Error of a `Call` invocation: the VM raised, or pushing one of the
arguments failed. -/
inductive CallError (E : Type) where
  | LuaError (e : LuaError)
  | PushError (e : E)
deriving DecidableEq, Repr

/-- The behaviour of invoking a VM value: given the callee, the argument
list and the current state, the VM completes with a result list, raises,
or exhausts memory.  This is the abstract collaborator behind `lua_pcall`. -/
def CallSem : Type := LuaValue → List LuaValue → LuaSt → VmOutcome (List LuaValue)

def pushList (s : LuaSt) : List LuaValue → LuaSt
  | [] => s
  | v :: vs => pushList (s.push v) vs

/-- `lua_pcall(l, nargs, LUA_MULTRET, 0)`: pops the callee and its
arguments, then pushes either the results or the error message, returning
the status code.  The callee runs in its own frame: it cannot touch the
caller's remaining slots. -/
def lua_pcall (s : LuaSt) (nargs : Nat) (sem : CallSem) : Int × LuaSt :=
  let fv := (s.stack.get? nargs).getD .nil
  let argvs := (s.stack.take nargs).reverse
  let s1 := s.popN (nargs + 1)
  match sem fv argvs s1 with
  | .ok rs s2 => (0, pushList { s2 with stack := s1.stack } rs)
  | .raise m s2 => (LUA_ERRRUN, ({ s2 with stack := s1.stack }).push (.str m))
  | .oom => (LUA_ERRMEM, s1)

/-- The status-code handling of `imp::call`, in source order: `LUA_ERRMEM`
panics, `LUA_ERRRUN` reads the message through the result guard and
returns an `ExecutionError`, `0` decodes the `n_results`-slot guard (a
failed decode drops the guard), any other code panics.  `dec` models
`R::lua_read` on the guard of `n_results` slots; a success hands the guard
(its size) to the caller inside the result. -/
def lua_pcall_dispatch {ρ : Type} {E : Type} (rc : Int) (old_top : Nat) (s3 : LuaSt)
    (dec : Nat → LuaSt → Option ρ) :
    RustOut (Except (CallError E) (ρ × Nat) × LuaSt) :=
  let n_results := s3.gettop - old_top
  if rc = LUA_ERRMEM then .panic "lua_pcall returned LUA_ERRMEM"
  else if rc = LUA_ERRRUN then
    match readTopString s3 with
    | some (m, s4) => .ok (.error (.LuaError (.ExecutionError m)), s4)
    | none => .panic "cannot find error message at the top of the Lua stack"
  else if rc = 0 then
    match dec n_results s3 with
    | some r => .ok (.ok (r, n_results), s3)
    | none => .ok (.error (.LuaError .WrongType), s3.popN n_results)
  else .panic "Unknown error code returned by lua_pcall"

/-- `imp::call`: pushes a copy of the callable, pushes the arguments
(returning a `PushError` if that fails — the copy of the callable is then
left behind), invokes `lua_pcall` requesting all results, and dispatches
on the status code.  Arguments are modelled as an `Except`: a typed push
failure or the list of values the push leaves on the stack. -/
def imp_call {ρ E : Type} (s0 : LuaSt) (index : Nat)
    (args : Except E (List LuaValue)) (sem : CallSem)
    (dec : Nat → LuaSt → Option ρ) :
    RustOut (Except (CallError E) (ρ × Nat) × LuaSt) :=
  let old_top := s0.gettop
  -- lua_pcall pops the function, so we have to make a copy of it
  let s1 := api_pushvalue index s0
  match args with
  | .error e => .ok (.error (.PushError e), s1)
  | .ok avs =>
    let s2 := pushList s1 avs
    let pres := lua_pcall s2 avs.length sem
    lua_pcall_dispatch pres.1 old_top pres.2 dec

/-- `imp::is_callable`: a function, or a value whose metatable carries
`__call` (the metafield probe is pushed and immediately popped, so the
predicate is stack-neutral). -/
def is_callable (s : LuaSt) (i : Nat) : Bool :=
  match s.absGet i with
  | .func _ => true
  | v => metaHandler s v "__call" ≠ .nil

/-- `imp::is_indexable`: a table, or a value whose metatable carries
`__index`. -/
def is_indexable (s : LuaSt) (i : Nat) : Bool :=
  match s.absGet i with
  | .table _ => true
  | v => metaHandler s v "__index" ≠ .nil

/-- `imp::is_rw_indexable`: a table, or a value whose metatable carries
both `__index` and `__newindex`. -/
def is_rw_indexable (s : LuaSt) (i : Nat) : Bool :=
  match s.absGet i with
  | .table _ => true
  | v => metaHandler s v "__index" ≠ .nil ∧ metaHandler s v "__newindex" ≠ .nil

/-- `imp::is_table`. -/
def is_table (s : LuaSt) (i : Nat) : Bool :=
  match s.absGet i with
  | .table _ => true
  | _ => false

/-- `imp::is_function`. -/
def is_function (s : LuaSt) (i : Nat) : Bool :=
  match s.absGet i with
  | .func _ => true
  | _ => false

/-- The common carrier of every concrete view (`Indexable`, `IndexableRW`,
`Callable`, `LuaTable`, `LuaFunction`): a guard paired with an absolute
stack index.  The guard type `γ` is abstract; `asLua` recovers the raw VM
handle from it. -/
structure Obj (γ : Type) where
  lua : γ
  index : Nat
deriving DecidableEq, Repr

/-- The `TryFrom` bodies the `impl_object!` macro generates (both the
`try_from` and the `try_into` arm): run the runtime predicate against the
guard's VM state at the view's index; on success rebuild the target view
from the same guard and index, on failure return the original view. -/
def try_from_impl {γ : Type} (check : LuaSt → Nat → Bool) (asLua : γ → LuaSt)
    (other : Obj γ) : Except (Obj γ) (Obj γ) :=
  if check (asLua other.lua) other.index then .ok ⟨other.lua, other.index⟩
  else .error other

/-- The `From` bodies the macro generates: rebuild the target view from
the source's index and inner guard, unconditionally. -/
def from_impl {γ : Type} (other : Obj γ) : Obj γ :=
  ⟨other.lua, other.index⟩

/-- `TryFrom<Indexable> for Callable`. -/
def callable_try_from_indexable {γ : Type} (asLua : γ → LuaSt) (o : Obj γ) :
    Except (Obj γ) (Obj γ) :=
  try_from_impl is_callable asLua o

/-- `TryFrom<Indexable> for IndexableRW`. -/
def rw_try_from_indexable {γ : Type} (asLua : γ → LuaSt) (o : Obj γ) :
    Except (Obj γ) (Obj γ) :=
  try_from_impl is_rw_indexable asLua o

/-- `TryFrom<Callable> for Indexable`. -/
def indexable_try_from_callable {γ : Type} (asLua : γ → LuaSt) (o : Obj γ) :
    Except (Obj γ) (Obj γ) :=
  try_from_impl is_indexable asLua o

/-- `TryFrom<Indexable> for LuaTable` (the `try_into` arm). -/
def luatable_try_from_indexable {γ : Type} (asLua : γ → LuaSt) (o : Obj γ) :
    Except (Obj γ) (Obj γ) :=
  try_from_impl is_table asLua o

/-- `TryFrom<Callable> for LuaFunction` (the `try_into` arm). -/
def luafunction_try_from_callable {γ : Type} (asLua : γ → LuaSt) (o : Obj γ) :
    Except (Obj γ) (Obj γ) :=
  try_from_impl is_function asLua o

/-- Error of `Index::call_method`. -/
inductive MethodCallError (E : Type) where
  | NoSuchMethod
  | LuaError (e : LuaError)
  | PushError (e : E)
deriving DecidableEq, Repr

/-- `Callable::lua_read` on the one-slot guard `try_get` produced: the
view is built exactly when the value at the top of the stack is callable;
the view records the slot's absolute index. -/
def dec_callable (s : LuaSt) : Option Nat :=
  if is_callable s s.gettop then some s.gettop else none

/-- `Index::call_method`: resolves `self[name]` as a `Callable` through
`get` (whose `None` — execution error, nil, or a non-callable value —
becomes `NoSuchMethod`), then invokes it with `self` as the implicit first
argument, mapping `CallError` into `MethodCallError`. -/
def Index_call_method {ρ E : Type} (s : LuaSt) (this_index : Nat) (name : String)
    (args : Except E (List LuaValue)) (sem : CallSem)
    (dec : Nat → LuaSt → Option ρ) :
    RustOut (Except (MethodCallError E) (ρ × Nat) × LuaSt) :=
  match imp_try_get dec_callable s this_index (.str name) with
  | .panic m => .panic m
  | .ok (.error _, s1) => .ok (.error .NoSuchMethod, s1)
  | .ok (.ok cidx, s1) =>
    -- (self, args): a copy of the view itself is the first argument
    let margs := args.map fun avs => s1.absGet this_index :: avs
    match imp_call s1 cidx margs sem dec with
    | .panic m => .panic m
    | .ok (.ok r, s2) => .ok (.ok r, s2)
    | .ok (.error (.LuaError e), s2) => .ok (.error (.LuaError e), s2)
    | .ok (.error (.PushError e), s2) => .ok (.error (.PushError e), s2)

/-- `NewIndex::try_set`: only available when pushing the key and the value
cannot fail; a staging error surfacing from `try_checked_set` is the
`unreachable!` branch. -/
def NewIndex_try_set {K V : Type} (s : LuaSt) (this_index : Nat)
    (kv vv : LuaValue) :
    RustOut (Except LuaError Unit × LuaSt) :=
  match imp_try_checked_set (K := K) (V := V) s this_index (.ok kv) (.ok vv) with
  | .panic m => .panic m
  | .ok (.ok _, s1) => .ok (.ok (), s1)
  | .ok (.error (.error e), s1) => .ok (.error e, s1)
  | .ok (.error (.ok _), _) => .panic "Void is uninstantiatable"

/-- `NewIndex::set`: the convenience form; panics when `try_set` fails. -/
def NewIndex_set {K V : Type} (s : LuaSt) (this_index : Nat) (kv vv : LuaValue) :
    RustOut (Unit × LuaSt) :=
  match NewIndex_try_set (K := K) (V := V) s this_index kv vv with
  | .panic m => .panic m
  | .ok (.ok _, s1) => .ok ((), s1)
  | .ok (.error _, _) => .panic "Setting value failed"

/-- `NewIndex::checked_set`: surfaces staging (push) failures as typed
results but panics when the VM raised during the assignment
(`unwrap_or_else(|e| panic!(..))` on the `LuaError` side). -/
def NewIndex_checked_set {K V : Type} (s : LuaSt) (this_index : Nat)
    (index : Except K LuaValue) (value : Except V LuaValue) :
    RustOut (Except (CheckedSetError K V) Unit × LuaSt) :=
  match imp_try_checked_set s this_index index value with
  | .panic m => .panic m
  | .ok (.ok _, s1) => .ok (.ok (), s1)
  | .ok (.error (.ok c), s1) => .ok (.error c, s1)
  | .ok (.error (.error _), _) => .panic "Setting value failed"

/-- A primitive host value: the four primitive host types of the
round-trip property. -/
inductive HostPrim where
  | hbool (b : Bool)
  | hint (n : Int)
  | hfloat (x : F64)
  | htext (t : String)
deriving DecidableEq, Repr

inductive HostType where
  | tbool
  | tint
  | tfloat
  | ttext
deriving DecidableEq, Repr

def HostPrim.typeOf : HostPrim → HostType
  | .hbool _ => .tbool
  | .hint _ => .tint
  | .hfloat _ => .tfloat
  | .htext _ => .ttext

/-- Modelled from the spec: the push half of the primitive codec (the
`Push` impls for booleans, integers, floats and strings live in tlua
modules outside the examined sources); pushing a primitive host value
stages the corresponding VM value. -/
def encodePrim : HostPrim → LuaValue
  | .hbool b => .boolean b
  | .hint n => .number n
  | .hfloat x => .float x
  | .htext t => .str t

/-- Modelled from the spec: the read half of the primitive codec (the
`LuaRead` impls live in tlua modules outside the examined sources);
reading at a host type succeeds exactly on the VM value of that shape. -/
def decodePrimAs : HostType → LuaValue → Option HostPrim
  | .tbool, .boolean b => some (.hbool b)
  | .tint, .number n => some (.hint n)
  | .tfloat, .float x => some (.hfloat x)
  | .ttext, .str t => some (.htext t)
  | _, _ => none

/-- The value at the top of the stack (what a one-slot guard's read sees). -/
def topVal (s : LuaSt) : LuaValue := s.stack.headD .nil

/-- `R::lua_read` for a primitive host type on a one-slot guard. -/
def dec_prim (ty : HostType) (s : LuaSt) : Option HostPrim :=
  decodePrimAs ty (topVal s)

theorem encode_ne_nil (p : HostPrim) : encodePrim p ≠ LuaValue.nil := by
  cases p <;> simp [encodePrim]

theorem decode_encode (p : HostPrim) : decodePrimAs p.typeOf (encodePrim p) = some p := by
  cases p <;> rfl

theorem int_ne_a1 (n : Int) : ¬(n + 1 = n) := by omega

theorem int_ne_a2 (n : Int) : ¬(n + 2 = n) := by omega

theorem int_ne_a21 (n : Int) : ¬(n + 2 = n + 1) := by omega

theorem int_ne_b1 (n : Int) : ¬(n = n + 1) := by omega

theorem int_ne_b2 (n : Int) : ¬(n = n + 2) := by omega

theorem int_ne_b12 (n : Int) : ¬(n + 1 = n + 2) := by omega

theorem addLog_stack (s : LuaSt) (e : Ev) : (s.addLog e).stack = s.stack := rfl

theorem addLog_gettop (s : LuaSt) (e : Ev) : (s.addLog e).gettop = s.gettop := rfl

theorem push_gettop (s : LuaSt) (v : LuaValue) : (s.push v).gettop = s.gettop + 1 := rfl

theorem popN_gettop (s : LuaSt) (n : Nat) : (s.popN n).gettop = s.gettop - n := by
  simp [LuaSt.popN, LuaSt.gettop]

theorem api_push_gettop (v : LuaValue) (s : LuaSt) : (api_push v s).gettop = s.gettop + 1 := rfl

theorem api_pushvalue_gettop (i : Nat) (s : LuaSt) :
    (api_pushvalue i s).gettop = s.gettop + 1 := rfl

theorem regGet_gettop (r : Int) (s : LuaSt) : (regGet r s).gettop = s.gettop + 1 := rfl

theorem luaL_unref_gettop (r : Int) (s : LuaSt) : (luaL_unref r s).gettop = s.gettop := by
  unfold luaL_unref
  split <;> rfl

theorem luaL_ref_gettop (s : LuaSt) : (luaL_ref s).2.gettop = s.gettop - 1 := by
  unfold luaL_ref
  rcases hst : s.stack with _ | ⟨v, rest⟩ <;>
    simp [hst, LuaSt.gettop, LuaSt.addLog]
  · split <;> simp [LuaSt.gettop]

theorem setTopTo_gettop (s : LuaSt) (d : Nat) : (s.setTopTo d).gettop = d := by
  unfold LuaSt.setTopTo LuaSt.gettop
  split <;> simp <;> omega

theorem protected_call_of_ok {R : Type} (s : LuaSt) (f : LuaSt → VmOutcome R)
    (r : R) (s1 : LuaSt) (h : f (s.addLog .pcallEnter) = .ok r s1) :
    protected_call s f = .ok (.ok r, s1.setTopTo s.gettop) := by
  simp [protected_call, lua_cpcall, h, pcallDispatch]

theorem protected_call_of_raise {R : Type} (s : LuaSt) (f : LuaSt → VmOutcome R)
    (m : String) (s1 : LuaSt) (h : f (s.addLog .pcallEnter) = .raise m s1) :
    protected_call s f = .ok (.error (.ExecutionError m), s1.setTopTo s.gettop) := by
  simp [protected_call, lua_cpcall, h, pcallDispatch, LUA_ERRRUN, LUA_ERRMEM,
    readTopString, LuaSt.push, luaToString]

theorem protected_call_of_oom {R : Type} (s : LuaSt) (f : LuaSt → VmOutcome R)
    (h : f (s.addLog .pcallEnter) = .oom) :
    protected_call s f = .panic "lua_cpcall returned LUA_ERRMEM" := by
  simp [protected_call, lua_cpcall, h, pcallDispatch, LUA_ERRRUN, LUA_ERRMEM]

theorem protected_call_cases {R : Type} (s : LuaSt) (f : LuaSt → VmOutcome R) :
    (∃ r s1, protected_call s f = .ok (.ok r, s1) ∧ s1.gettop = s.gettop)
    ∨ (∃ m s1, protected_call s f = .ok (.error (.ExecutionError m), s1) ∧
        s1.gettop = s.gettop)
    ∨ protected_call s f = .panic "lua_cpcall returned LUA_ERRMEM" := by
  rcases hf : f (s.addLog .pcallEnter) with ⟨r, s1⟩ | ⟨m, s1⟩ | _
  · exact .inl ⟨r, _, protected_call_of_ok s f r s1 hf, setTopTo_gettop s1 s.gettop⟩
  · exact .inr (.inl ⟨m, _, protected_call_of_raise s f m s1 hf,
      setTopTo_gettop s1 s.gettop⟩)
  · exact .inr (.inr (protected_call_of_oom s f hf))

theorem setTopTo_self (s : LuaSt) : s.setTopTo s.gettop = s := by
  unfold LuaSt.setTopTo LuaSt.gettop
  rw [if_pos (le_refl _)]
  simp

theorem tryGetBody_no_oom (tr ir : Int) (l : LuaSt) :
    tryGetBody tr ir l ≠ VmOutcome.oom := by
  unfold tryGetBody
  rcases h : lua_gettable (regGet ir (regGet tr l)) (-2) with ⟨m, le⟩ | l3 <;> simp [h]

theorem trySetBody_no_oom (tr ir vr : Int) (l : LuaSt) :
    trySetBody tr ir vr l ≠ VmOutcome.oom := by
  unfold trySetBody
  rcases h : lua_settable (regGet vr (regGet ir (regGet tr l))) (-3) with ⟨m, le⟩ | l4 <;>
    simp [h]

theorem protected_call_cases_noOom {R : Type} (s : LuaSt) (f : LuaSt → VmOutcome R)
    (hf : ∀ l, f l ≠ VmOutcome.oom) :
    (∃ r s1, protected_call s f = .ok (.ok r, s1) ∧ s1.gettop = s.gettop)
    ∨ (∃ m s1, protected_call s f = .ok (.error (.ExecutionError m), s1) ∧
        s1.gettop = s.gettop) := by
  rcases hfe : f (s.addLog .pcallEnter) with ⟨r, s1⟩ | ⟨m, s1⟩ | _
  · exact .inl ⟨r, _, protected_call_of_ok s f r s1 hfe, setTopTo_gettop s1 s.gettop⟩
  · exact .inr ⟨m, _, protected_call_of_raise s f m s1 hfe, setTopTo_gettop s1 s.gettop⟩
  · exact absurd hfe (hf _)

theorem protected_call_panic_inv {R : Type} (s : LuaSt) (f : LuaSt → VmOutcome R)
    (m : String) (h : protected_call s f = .panic m) :
    f (s.addLog .pcallEnter) = .oom := by
  rcases hfe : f (s.addLog .pcallEnter) with ⟨r, s1⟩ | ⟨mm, s1⟩ | _
  · rw [protected_call_of_ok s f r s1 hfe] at h
    exact absurd h (by simp)
  · rw [protected_call_of_raise s f mm s1 hfe] at h
    exact absurd h (by simp)
  · rfl

/-- Fixture: an empty VM state. -/
def st0 : LuaSt := ⟨[], [], [], 0, []⟩

/-- Fixture: a single non-callable, non-indexable value on the stack. -/
def stNum : LuaSt := ⟨[.number 7], [], [], 0, []⟩

/-- Fixture: a single plain (metatable-free) empty table on the stack. -/
def stTab : LuaSt := ⟨[.table 0], [(0, ⟨[], none⟩)], [], 0, []⟩

/-- Claim C3: both protected-call sites handle the VM's status code in
exactly four ways.  For `imp::protected_call` (`lua_cpcall`): status `0`
continues with the closure's result; a VM raise surfaces as a recoverable
`ExecutionError` carrying the message read off the top of the stack;
memory exhaustion panics (terminating the protected region, never
downgraded to an error value); any other status code panics loudly.  The
same four-way handling holds for `imp::call` (`lua_pcall`). -/
theorem protected_call_status_taxonomy :
    (∀ (R : Type) (s : LuaSt) (r0 : R),
      protected_call s (fun l => .ok r0 l) = .ok (.ok r0, s.addLog .pcallEnter))
    ∧ (∀ (s : LuaSt) (m : String),
      protected_call (R := Unit) s (fun l => VmOutcome.raise m l)
        = .ok (.error (.ExecutionError m), s.addLog .pcallEnter))
    ∧ (∀ (R : Type) (s : LuaSt),
      protected_call (R := R) s (fun _ => .oom)
        = .panic "lua_cpcall returned LUA_ERRMEM")
    ∧ (∀ (R : Type) (rc : Int) (s : LuaSt) (out : Option R),
      rc ≠ 0 → rc ≠ LUA_ERRRUN → rc ≠ LUA_ERRMEM →
      pcallDispatch rc s out = .panic "Unknown error code returned by lua_cpcall")
    ∧ (∀ (ρ E : Type) (s : LuaSt) (i : Nat) (avs : List LuaValue) (m : String)
        (dec : Nat → LuaSt → Option ρ),
      ∃ s1, imp_call (E := E) s i (.ok avs) (fun _ _ l => .raise m l) dec
        = .ok (.error (.LuaError (.ExecutionError m)), s1))
    ∧ (∀ (ρ E : Type) (s : LuaSt) (i : Nat) (avs : List LuaValue)
        (dec : Nat → LuaSt → Option ρ),
      imp_call (E := E) s i (.ok avs) (fun _ _ _ => .oom) dec
        = .panic "lua_pcall returned LUA_ERRMEM")
    ∧ (∀ (ρ E : Type) (rc : Int) (old : Nat) (s : LuaSt)
        (dec : Nat → LuaSt → Option ρ),
      rc ≠ 0 → rc ≠ LUA_ERRRUN → rc ≠ LUA_ERRMEM →
      lua_pcall_dispatch (E := E) rc old s dec
        = .panic "Unknown error code returned by lua_pcall") := by
  refine ⟨?_, ?_, ?_, ?_, ?_, ?_, ?_⟩
  · intro R s r0
    rw [protected_call_of_ok s _ r0 (s.addLog .pcallEnter) rfl]
    rw [show s.gettop = (s.addLog .pcallEnter).gettop from rfl, setTopTo_self]
  · intro s m
    rw [protected_call_of_raise s _ m (s.addLog .pcallEnter) rfl]
    rw [show s.gettop = (s.addLog .pcallEnter).gettop from rfl, setTopTo_self]
  · intro R s
    exact protected_call_of_oom s _ rfl
  · intro R rc s out h0 h2 h4
    simp [pcallDispatch, h0, h2, h4]
  · intro ρ E s i avs m dec
    exact ⟨_, rfl⟩
  · intro ρ E s i avs dec
    simp [imp_call, lua_pcall, lua_pcall_dispatch, LUA_ERRRUN, LUA_ERRMEM]
  · intro ρ E rc old s dec h0 h2 h4
    simp [lua_pcall_dispatch, h0, h2, h4]

/-- Demonstration at a concrete input: the unknown status code `3`
(`LUA_ERRSYNTAX`) aborts loudly at both sites. -/
theorem protected_call_status_taxonomy_witness :
    pcallDispatch (R := Unit) 3 st0 none
        = .panic "Unknown error code returned by lua_cpcall"
    ∧ lua_pcall_dispatch (ρ := Unit) (E := Unit) 3 0 st0 (fun _ _ => none)
        = .panic "Unknown error code returned by lua_pcall" :=
  ⟨protected_call_status_taxonomy.2.2.2.1 Unit 3 st0 none (by decide)
      (by decide) (by decide),
   protected_call_status_taxonomy.2.2.2.2.2.2 Unit Unit 3 0 st0 (fun _ _ => none)
      (by decide) (by decide) (by decide)⟩

/-- Claim C5: a capability-view conversion whose runtime type predicate
fails returns `Err` carrying the original view unconsumed — the very same
guard and absolute position — so the original view remains fully usable
(conversions are loss-free on failure).  This is the single body the
`impl_object!` macro generates for every `TryFrom` pair. -/
theorem try_from_fail_returns_original {γ : Type} (check : LuaSt → Nat → Bool)
    (asLua : γ → LuaSt) (o : Obj γ) (h : check (asLua o.lua) o.index = false) :
    try_from_impl check asLua o = .error o := by
  simp [try_from_impl, h]

/-- Demonstration at a concrete input: converting a view over a
non-callable slot (a number) to a `Callable` view returns the original
view. -/
theorem try_from_fail_returns_original_witness :
    is_callable stNum 1 = false
    ∧ try_from_impl is_callable (fun _ : Unit => stNum) ⟨(), 1⟩
        = .error ⟨(), 1⟩ :=
  ⟨rfl, try_from_fail_returns_original is_callable (fun _ => stNum) ⟨(), 1⟩ rfl⟩

/-- Claim C9: every view-to-view conversion, fallible (on success) or
infallible, preserves the (guard, position) pair: the resulting view
holds the same guard and the same absolute index as the source, so no
conversion moves, copies or re-pushes the underlying VM value. -/
theorem conversions_preserve_guard_and_index {γ : Type} (check : LuaSt → Nat → Bool)
    (asLua : γ → LuaSt) (o r : Obj γ)
    (h : try_from_impl check asLua o = .ok r) : r = o ∧ from_impl o = o := by
  refine ⟨?_, rfl⟩
  unfold try_from_impl at h
  split at h
  · cases h
    rfl
  · cases h

/-- Demonstration at a concrete input: a successful conversion (a plain
table narrowed through `is_table`) hands back the identical guard and
position. -/
theorem conversions_preserve_guard_and_index_witness :
    (⟨(), 1⟩ : Obj Unit) = ⟨(), 1⟩ ∧ from_impl (⟨(), 1⟩ : Obj Unit) = ⟨(), 1⟩ :=
  conversions_preserve_guard_and_index is_table (fun _ => stTab) ⟨(), 1⟩ ⟨(), 1⟩ rfl

/-- Claim C10: when pushing the key and the value cannot fail (their push
error types convert into `Void`, modelled by handing `try_checked_set`
already-staged values), `NewIndex::try_set` never returns a push error:
its only outcomes are success and `LuaError::ExecutionError` from the VM
raising during the assignment, so the `Ok(CheckedSetError)` branch inside
`try_set` (the `unreachable!`) is indeed never taken and `try_set` never
panics through it. -/
theorem try_set_only_failure_is_execution_error {K V : Type} (s : LuaSt) (i : Nat)
    (kv vv : LuaValue) :
    (∃ s1, NewIndex_try_set (K := K) (V := V) s i kv vv = .ok (.ok (), s1))
    ∨ (∃ m s1, NewIndex_try_set (K := K) (V := V) s i kv vv
        = .ok (.error (.ExecutionError m), s1)) := by
  simp only [NewIndex_try_set, imp_try_checked_set]
  rcases protected_call_cases_noOom
      ((luaL_ref (api_pushvalue i (luaL_ref (api_push kv (luaL_ref (api_push vv s)).2)).2)).2)
      (trySetBody
        (luaL_ref (api_pushvalue i (luaL_ref (api_push kv (luaL_ref (api_push vv s)).2)).2)).1
        (luaL_ref (api_push kv (luaL_ref (api_push vv s)).2)).1
        (luaL_ref (api_push vv s)).1)
      (trySetBody_no_oom _ _ _)
    with ⟨r, s1, hpc, _⟩ | ⟨m, s1, hpc, _⟩
  · rw [hpc]
    exact .inl ⟨_, rfl⟩
  · rw [hpc]
    exact .inr ⟨m, _, rfl⟩


theorem nat_le_add_one (n : Nat) : n ≤ n + 1 := by omega

theorem cast_nonneg0 (n : Nat) : ¬((n : Int) < 0) := by omega

theorem cast_nonneg1 (n : Nat) : ¬((n : Int) + 1 < 0) := by omega

theorem cast_nonneg2 (n : Nat) : ¬((n : Int) + 2 < 0) := by omega

theorem nat_add11 (n : Nat) : n + 1 + 1 = n + 2 := by omega

theorem nat_add111 (n : Nat) : n + 1 + 1 + 1 = n + 3 := by omega

theorem int_add11 (n : Int) : n + 1 + 1 = n + 2 := by omega

theorem nat_add12 (n : Nat) : n + 1 + 2 = n + 3 := by omega

theorem nat_add21 (n : Nat) : n + 2 + 1 = n + 3 := by omega

theorem int_add12 (n : Int) : n + 1 + 2 = n + 3 := by omega

theorem int_add21 (n : Int) : n + 2 + 1 = n + 3 := by omega

theorem gettableLoop_found (s : LuaSt) (tid : Nat) (t : Table) (k : LuaValue)
    (h2 : assocFind s.heap tid = some t) (hnn : t.rawget k ≠ .nil) :
    gettableLoop s 100 (.table tid) k = .ok (t.rawget k) := by
  rw [show (100 : Nat) = 99 + 1 from rfl]
  unfold gettableLoop
  simp [h2, hnn]

theorem settableLoop_plain (s : LuaSt) (tid : Nat) (t : Table) (k v : LuaValue)
    (h2 : assocFind s.heap tid = some t) (h3 : t.meta = none) (hk : k ≠ .nil) :
    settableLoop s 100 (.table tid) k v
      = .ok { s with heap := assocUpdate s.heap tid (t.rawset k v) } := by
  rw [show (100 : Nat) = 99 + 1 from rfl]
  unfold settableLoop
  by_cases hrg : t.rawget k = LuaValue.nil
  · simp [h2, hrg, metaHandler, h3, rawsetChecked, hk]
  · simp [h2, hrg, rawsetChecked, hk]

/-- The state `imp::try_get` reaches on its success path just before the
result is decoded: the looked-up value sits on top of the stack as the
caller's one-slot guard, the three staging handles K, T, V are live in the
registry, and the event log shows the staging order. -/
def afterGetStage (s : LuaSt) (i : Nat) (k ev : LuaValue) : LuaSt :=
  { stack := ev :: s.stack,
    heap := s.heap,
    registry :=
      (((s.nextRef : Int) + 2), ev) :: (((s.nextRef : Int) + 1), s.absGet i)
        :: ((s.nextRef : Int), k) :: s.registry,
    nextRef := s.nextRef + 3,
    log := s.log ++
      [.push k, .ref (s.nextRef : Int), .pushvalue i, .ref ((s.nextRef : Int) + 1),
       .pcallEnter, .regGet ((s.nextRef : Int) + 1), .regGet (s.nextRef : Int),
       .getTable, .ref ((s.nextRef : Int) + 2), .regGet ((s.nextRef : Int) + 2)] }

theorem try_get_plain_eval {ρ : Type} (dec : LuaSt → Option ρ) (s : LuaSt)
    (i tid : Nat) (t : Table) (k ev : LuaValue)
    (h1 : s.absGet i = .table tid) (h2 : assocFind s.heap tid = some t)
    (hk : k ≠ .nil) (hval : t.rawget k = ev) (hv : ev ≠ .nil) :
    imp_try_get dec s i k =
      match dec (afterGetStage s i k ev) with
      | some r => .ok (.ok r,
          luaL_unref ((s.nextRef : Int) + 1) (luaL_unref (s.nextRef : Int)
            (luaL_unref ((s.nextRef : Int) + 2) (afterGetStage s i k ev))))
      | none => .ok (.error .WrongType,
          luaL_unref ((s.nextRef : Int) + 1) (luaL_unref (s.nextRef : Int)
            (luaL_unref ((s.nextRef : Int) + 2) ((afterGetStage s i k ev).popN 1)))) := by
  have hevnn : t.rawget k ≠ LuaValue.nil := hval ▸ hv
  simp only [LuaSt.absGet] at h1
  simp only [imp_try_get, api_push, api_pushvalue, LuaSt.push, LuaSt.addLog,
    luaL_ref, protected_call, lua_cpcall, pcallDispatch, tryGetBody, regGet,
    lua_gettable, LuaSt.relGet, LuaSt.absGet, LuaSt.gettop, LuaSt.setTopTo,
    LuaSt.popN, assocFind, afterGetStage, luaL_unref]
  rcases hdec : dec (afterGetStage s i k ev) with _ | r
  all_goals simp only [afterGetStage, LuaSt.absGet, h1] at hdec
  all_goals simp [hdec, h1, h2, hk, hv, hval, hevnn, gettableLoop_found, assocFind, luaL_ref,
    luaL_unref, LuaSt.setTopTo, LuaSt.gettop, LuaSt.popN, LuaSt.addLog,
    LuaSt.relGet, LuaSt.absGet, int_ne_a1, int_ne_a2,
    int_ne_a21, int_ne_b1, int_ne_b2, int_ne_b12, cast_nonneg0, cast_nonneg1,
    cast_nonneg2, nat_le_add_one, nat_add11, nat_add111, int_add11, nat_add12,
    nat_add21, int_add12, int_add21, stkNth, List.append_assoc]

theorem try_checked_set_plain_eval {K V : Type} (s : LuaSt) (i tid : Nat) (t : Table)
    (kv vv : LuaValue)
    (h1 : s.absGet i = .table tid) (h2 : assocFind s.heap tid = some t)
    (h3 : t.meta = none) (hk : kv ≠ .nil) (hv : vv ≠ .nil) :
    ∃ s1, imp_try_checked_set (K := K) (V := V) s i (.ok kv) (.ok vv)
        = .ok (.ok (), s1) ∧ s1.stack = s.stack
        ∧ s1.heap = assocUpdate s.heap tid (t.rawset kv vv) := by
  simp only [LuaSt.absGet] at h1
  simp only [imp_try_checked_set, api_push, api_pushvalue, LuaSt.push, LuaSt.addLog,
    luaL_ref, protected_call, lua_cpcall, pcallDispatch, trySetBody, regGet,
    lua_settable, LuaSt.relGet, LuaSt.absGet, LuaSt.gettop, LuaSt.setTopTo,
    LuaSt.popN, assocFind, luaL_unref]
  simp [h1, h2, h3, hk, hv, settableLoop_plain, assocFind, luaL_ref, luaL_unref,
    LuaSt.setTopTo, LuaSt.gettop, LuaSt.popN, LuaSt.addLog, LuaSt.relGet,
    LuaSt.absGet, int_ne_a1, int_ne_a2, int_ne_a21, int_ne_b1, int_ne_b2,
    int_ne_b12, cast_nonneg0, cast_nonneg1, cast_nonneg2, nat_le_add_one,
    nat_add11, nat_add111, int_add11, nat_add12, nat_add21, int_add12,
    int_add21, stkNth, List.append_assoc]

theorem assocFind_update_self {α β : Type} [DecidableEq α] (l : List (α × β))
    (k : α) (v : β) (b : β) (h : assocFind l k = some b) :
    assocFind (assocUpdate l k v) k = some v := by
  induction l with
  | nil => simp [assocFind] at h
  | cons p rest ih =>
    by_cases hp : p.1 = k
    · simp [assocFind, assocUpdate, hp]
    · simp [assocFind, assocUpdate, hp] at h ⊢
      exact ih h

theorem rawset_rawget (t : Table) (k v : LuaValue) (hv : v ≠ .nil) :
    (t.rawset k v).rawget k = v := by
  simp [Table.rawset, Table.rawget, hv, assocFind]

theorem absGet_of_stack_eq (s1 s2 : LuaSt) (h : s1.stack = s2.stack) (i : Nat) :
    s1.absGet i = s2.absGet i := by
  simp [LuaSt.absGet, h]

/-- Claim C6: on a read-write indexable view over a plain table, for every
primitive key and every primitive value (booleans, integers, floating
point, text), `set` followed by `get` at the same key succeeds and decodes
back to exactly the value that was set. -/
theorem set_then_get_round_trip (s : LuaSt) (i tid : Nat) (t : Table)
    (kp vp : HostPrim)
    (h1 : s.absGet i = .table tid) (h2 : assocFind s.heap tid = some t)
    (h3 : t.meta = none) :
    ∃ s1 s2,
      imp_try_checked_set (K := Unit) (V := Unit) s i
          (.ok (encodePrim kp)) (.ok (encodePrim vp)) = .ok (.ok (), s1)
      ∧ imp_try_get (dec_prim vp.typeOf) s1 i (encodePrim kp)
          = .ok (.ok vp, s2) := by
  obtain ⟨s1, hset, hstk, hheap⟩ :=
    try_checked_set_plain_eval (K := Unit) (V := Unit) s i tid t
      (encodePrim kp) (encodePrim vp) h1 h2 h3 (encode_ne_nil kp) (encode_ne_nil vp)
  have h1' : s1.absGet i = .table tid := by
    rw [absGet_of_stack_eq s1 s hstk]
    exact h1
  have h2' : assocFind s1.heap tid
      = some (t.rawset (encodePrim kp) (encodePrim vp)) := by
    rw [hheap]
    exact assocFind_update_self s.heap tid _ t h2
  have hval : (t.rawset (encodePrim kp) (encodePrim vp)).rawget (encodePrim kp)
      = encodePrim vp := rawset_rawget t _ _ (encode_ne_nil vp)
  have hget := try_get_plain_eval (dec_prim vp.typeOf) s1 i tid
    (t.rawset (encodePrim kp) (encodePrim vp)) (encodePrim kp) (encodePrim vp)
    h1' h2' (encode_ne_nil kp) hval (encode_ne_nil vp)
  have hdec : dec_prim vp.typeOf
      (afterGetStage s1 i (encodePrim kp) (encodePrim vp)) = some vp := by
    simp [dec_prim, topVal, afterGetStage, decode_encode]
  exact ⟨s1, _, hset, by rw [hget, hdec]⟩

/-- Demonstration at a concrete input: setting `"x" := 42` on an empty
plain table and reading `"x"` back as an integer returns 42. -/
theorem set_then_get_round_trip_witness :
    ∃ s1 s2,
      imp_try_checked_set (K := Unit) (V := Unit) stTab 1
          (.ok (encodePrim (.htext "x"))) (.ok (encodePrim (.hint 42)))
        = .ok (.ok (), s1)
      ∧ imp_try_get (dec_prim (HostPrim.hint 42).typeOf) s1 1
          (encodePrim (.htext "x")) = .ok (.ok (.hint 42), s2) :=
  set_then_get_round_trip stTab 1 0 ⟨[], none⟩ (.htext "x") (.hint 42) rfl rfl rfl

theorem gettableLoop_number (s : LuaSt) (n : Int) (k : LuaValue) :
    gettableLoop s 100 (.number n) k = .error "attempt to index a number value" := by
  rw [show (100 : Nat) = 99 + 1 from rfl]
  unfold gettableLoop
  rfl

/-- Fixture: a plain table carrying the single non-callable field
`x = 42`. -/
def stTabX : LuaSt := ⟨[.table 0], [(0, ⟨[(.str "x", .number 42)], none⟩)], [], 0, []⟩

/-- Claim C8: `imp::try_get` follows the registry-staging algorithm in
order — push the key and pin it (handle K), push a copy of the indexable
and pin it (handle T), enter the protected call, re-push T then K, perform
the native `lua_gettable`, pin the result (handle V) — as witnessed by the
exact sequence of C-API events; and when the VM raises inside the
protected call, the operation returns the VM's error text as an
`ExecutionError` value instead of propagating the abort. -/
theorem try_get_staging_order_and_raise :
    (∀ {ρ : Type} (dec : LuaSt → Option ρ) (s : LuaSt) (i tid : Nat) (t : Table)
        (k ev : LuaValue),
      s.absGet i = .table tid → assocFind s.heap tid = some t → k ≠ .nil →
      t.rawget k = ev → ev ≠ .nil →
      ∃ res s9, imp_try_get dec s i k = .ok (res, s9)
        ∧ s9.log = s.log ++
            [.push k, .ref (s.nextRef : Int), .pushvalue i,
             .ref ((s.nextRef : Int) + 1), .pcallEnter,
             .regGet ((s.nextRef : Int) + 1), .regGet (s.nextRef : Int),
             .getTable, .ref ((s.nextRef : Int) + 2),
             .regGet ((s.nextRef : Int) + 2), .unref ((s.nextRef : Int) + 2),
             .unref (s.nextRef : Int), .unref ((s.nextRef : Int) + 1)])
    ∧ (∀ {ρ : Type} (dec : LuaSt → Option ρ) (s : LuaSt) (i : Nat) (n : Int)
        (k : LuaValue),
      s.absGet i = .number n → k ≠ .nil →
      ∃ s9, imp_try_get dec s i k
        = .ok (.error (.ExecutionError "attempt to index a number value"), s9)) := by
  constructor
  · intro ρ dec s i tid t k ev h1 h2 hk hval hv
    rcases hdec : dec (afterGetStage s i k ev) with _ | r <;>
      rw [try_get_plain_eval dec s i tid t k ev h1 h2 hk hval hv, hdec] <;>
      refine ⟨_, _, rfl, ?_⟩ <;>
      simp [luaL_unref, afterGetStage, LuaSt.addLog, LuaSt.popN, cast_nonneg0,
        cast_nonneg1, cast_nonneg2, List.append_assoc]
  · intro ρ dec s i n k hT hk
    simp only [LuaSt.absGet] at hT
    simp only [imp_try_get, api_push, api_pushvalue, LuaSt.push, LuaSt.addLog,
      luaL_ref, protected_call, lua_cpcall, pcallDispatch, tryGetBody, regGet,
      lua_gettable, LuaSt.relGet, LuaSt.absGet, LuaSt.gettop, LuaSt.setTopTo,
      LuaSt.popN, assocFind, luaL_unref]
    simp [hT, hk, gettableLoop_number, assocFind, readTopString, luaToString,
      LUA_ERRRUN, LUA_ERRMEM, LuaSt.setTopTo, LuaSt.gettop, LuaSt.addLog,
      LuaSt.push, int_ne_a1,
      int_ne_a2, int_ne_a21, int_ne_b1, int_ne_b2, int_ne_b12, cast_nonneg0,
      cast_nonneg1, cast_nonneg2, nat_le_add_one, nat_add11, nat_add111,
      int_add11, nat_add12, nat_add21, int_add12, int_add21, stkNth,
      List.append_assoc]

/-- Demonstration at a concrete input: reading `"x"` from the table
`{x = 42}` produces exactly the staged event sequence with handles
K = 0, T = 1, V = 2. -/
theorem try_get_staging_order_and_raise_witness :
    ∃ res s9, imp_try_get (fun _ => (none : Option Unit)) stTabX 1 (.str "x")
        = .ok (res, s9)
      ∧ s9.log =
          [.push (.str "x"), .ref 0, .pushvalue 1, .ref 1, .pcallEnter,
           .regGet 1, .regGet 0, .getTable, .ref 2, .regGet 2, .unref 2,
           .unref 0, .unref 1] :=
  try_get_staging_order_and_raise.1 (fun _ => (none : Option Unit)) stTabX 1 0
    ⟨[(.str "x", .number 42)], none⟩ (.str "x") (.number 42)
    rfl rfl (by decide) rfl (by decide)

theorem settableLoop_number (s : LuaSt) (n : Int) (k v : LuaValue) :
    settableLoop s 100 (.number n) k v = .error "attempt to index a number value" := by
  rw [show (100 : Nat) = 99 + 1 from rfl]
  unfold settableLoop
  rfl

theorem imp_set_raises_nontable {K V : Type} (s : LuaSt) (i : Nat) (n : Int)
    (kv vv : LuaValue) (hT : s.absGet i = .number n) (hk : kv ≠ .nil)
    (hv : vv ≠ .nil) :
    ∃ s1, imp_try_checked_set (K := K) (V := V) s i (.ok kv) (.ok vv)
      = .ok (.error (.error (.ExecutionError "attempt to index a number value")), s1) := by
  simp only [LuaSt.absGet] at hT
  simp only [imp_try_checked_set, api_push, api_pushvalue, LuaSt.push, LuaSt.addLog,
    luaL_ref, protected_call, lua_cpcall, pcallDispatch, trySetBody, regGet,
    lua_settable, LuaSt.relGet, LuaSt.absGet, LuaSt.gettop, LuaSt.setTopTo,
    LuaSt.popN, assocFind, luaL_unref]
  simp [hT, hk, hv, settableLoop_number, assocFind, readTopString, luaToString,
    LUA_ERRRUN, LUA_ERRMEM, LuaSt.setTopTo, LuaSt.gettop, LuaSt.addLog,
    LuaSt.push, int_ne_a1, int_ne_a2, int_ne_a21, int_ne_b1, int_ne_b2,
    int_ne_b12, cast_nonneg0, cast_nonneg1, cast_nonneg2, nat_le_add_one,
    nat_add11, nat_add111, int_add11, nat_add12, nat_add21, int_add12,
    int_add21, stkNth, List.append_assoc]

/-- Counterexample to claim C7 as stated: when the VM raises during the
assignment (here: assigning through a non-indexable slot),
`NewIndex::checked_set` does not surface the failure as a typed result —
it panics.  Only `try_checked_set` returns it, as a `LuaError`. -/
theorem checked_set_panics_on_vm_raise :
    NewIndex_checked_set (K := Unit) (V := Unit) stNum 1
        (.ok (.str "k")) (.ok (.number 1)) = .panic "Setting value failed" := by
  obtain ⟨s1, h⟩ := imp_set_raises_nontable (K := Unit) (V := Unit) stNum 1 7
    (.str "k") (.number 1) rfl (by decide) (by decide)
  simp only [NewIndex_checked_set]
  rw [h]

/-- Claim C7 (amended): `NewIndex::set` panics on every failure of the
underlying `try_set` (with infallible pushes the only possible failure is
the VM raising during assignment) and passes success through;
`try_checked_set` surfaces both failure modes as typed results,
distinguishing staging failures (`ValuePushError` / `KeyPushError`,
decided before entering the VM — the value-push failure leaves the state
untouched) from the VM raising during assignment (an `ExecutionError`
decided only inside the protected call); `checked_set` surfaces only the
staging failures as typed results and panics when the VM raised. -/
theorem set_family_error_policy :
    (∀ (K V : Type) (s : LuaSt) (i : Nat) (ke : Except K LuaValue) (e : V),
      imp_try_checked_set s i ke (.error e)
        = .ok (.error (.ok (.ValuePushError e)), s))
    ∧ (∀ (K V : Type) (s : LuaSt) (i : Nat) (e : K) (vv : LuaValue),
      ∃ s1, imp_try_checked_set (V := V) s i (.error e) (.ok vv)
        = .ok (.error (.ok (.KeyPushError e)), s1))
    ∧ (∀ (K V : Type) (s : LuaSt) (i : Nat) (n : Int) (kv vv : LuaValue),
      s.absGet i = .number n → kv ≠ .nil → vv ≠ .nil →
      ∃ s1, imp_try_checked_set (K := K) (V := V) s i (.ok kv) (.ok vv)
        = .ok (.error (.error
            (.ExecutionError "attempt to index a number value")), s1))
    ∧ (∀ (K V : Type) (s : LuaSt) (i : Nat) (ke : Except K LuaValue) (e : V),
      NewIndex_checked_set s i ke (.error e) = .ok (.error (.ValuePushError e), s))
    ∧ (∀ (K V : Type) (s : LuaSt) (i : Nat) (n : Int) (kv vv : LuaValue),
      s.absGet i = .number n → kv ≠ .nil → vv ≠ .nil →
      NewIndex_checked_set (K := K) (V := V) s i (.ok kv) (.ok vv)
        = .panic "Setting value failed")
    ∧ (∀ (K V : Type) (s : LuaSt) (i : Nat) (kv vv : LuaValue) (e : LuaError)
        (s1 : LuaSt),
      NewIndex_try_set (K := K) (V := V) s i kv vv = .ok (.error e, s1) →
      NewIndex_set (K := K) (V := V) s i kv vv = .panic "Setting value failed")
    ∧ (∀ (K V : Type) (s : LuaSt) (i : Nat) (kv vv : LuaValue) (s1 : LuaSt),
      NewIndex_try_set (K := K) (V := V) s i kv vv = .ok (.ok (), s1) →
      NewIndex_set (K := K) (V := V) s i kv vv = .ok ((), s1)) := by
  refine ⟨?_, ?_, ?_, ?_, ?_, ?_, ?_⟩
  · intro K V s i ke e
    rfl
  · intro K V s i e vv
    exact ⟨_, rfl⟩
  · intro K V s i n kv vv hT hk hv
    exact imp_set_raises_nontable s i n kv vv hT hk hv
  · intro K V s i ke e
    rfl
  · intro K V s i n kv vv hT hk hv
    obtain ⟨s1, h⟩ := imp_set_raises_nontable (K := K) (V := V) s i n kv vv hT hk hv
    simp only [NewIndex_checked_set]
    rw [h]
  · intro K V s i kv vv e s1 h
    simp only [NewIndex_set]
    rw [h]
  · intro K V s i kv vv s1 h
    simp only [NewIndex_set]
    rw [h]

/-- Demonstration at a concrete input: on a non-indexable slot the VM
raises, `try_checked_set` returns the typed `ExecutionError`, and the
same input drives `checked_set` into its panic branch. -/
theorem set_family_error_policy_witness :
    ∃ s1, imp_try_checked_set (K := Unit) (V := Unit) stNum 1
        (.ok (.str "k")) (.ok (.number 1))
      = .ok (.error (.error
          (.ExecutionError "attempt to index a number value")), s1) :=
  set_family_error_policy.2.2.1 Unit Unit stNum 1 7 (.str "k") (.number 1)
    rfl (by decide) (by decide)

/-- Fixture: a plain table whose field `f` holds a function. -/
def stTabF : LuaSt := ⟨[.table 0], [(0, ⟨[(.str "f", .func 5)], none⟩)], [], 0, []⟩

/-- Counterexample to claim C4 as stated: the field `"x"` is present
(`self["x"] = 42`, not nil), yet `call_method` reports `NoSuchMethod`,
because resolving the field as a `Callable` fails on a non-callable
value.  `NoSuchMethod` is therefore not reserved to absent fields. -/
theorem call_method_no_such_method_on_present_field :
    (⟨[(.str "x", .number 42)], none⟩ : Table).rawget (.str "x") = .number 42
    ∧ ∃ s1, Index_call_method (ρ := Unit) (E := Unit) stTabX 1 "x" (.ok [])
        (fun _ _ l => .ok [] l) (fun _ _ => none)
      = .ok (.error .NoSuchMethod, s1) :=
  ⟨rfl, ⟨_, rfl⟩⟩

/-- Claim C4 (amended): `Index::call_method` returns `NoSuchMethod`
exactly when resolving `self[name]` as a callable fails (the field is
nil, not callable, or the lookup itself raised); once the lookup
succeeds, the invocation phase never yields `NoSuchMethod` — its failures
surface as `LuaError` (in particular the VM raising during the call
yields `LuaError (ExecutionError msg)` with the VM's message text) or
`PushError`.  The two failure modes are never conflated. -/
theorem call_method_error_discipline :
    (∀ (ρ E : Type) (s : LuaSt) (i : Nat) (name : String)
        (args : Except E (List LuaValue)) (sem : CallSem)
        (dec : Nat → LuaSt → Option ρ) (e : LuaError) (s1 : LuaSt),
      imp_try_get dec_callable s i (.str name) = .ok (.error e, s1) →
      Index_call_method s i name args sem dec = .ok (.error .NoSuchMethod, s1))
    ∧ (∀ (ρ E : Type) (s : LuaSt) (i : Nat) (name : String)
        (args : Except E (List LuaValue)) (sem : CallSem)
        (dec : Nat → LuaSt → Option ρ) (cidx : Nat) (s1 : LuaSt),
      imp_try_get dec_callable s i (.str name) = .ok (.ok cidx, s1) →
      (∃ r s2, Index_call_method s i name args sem dec = .ok (.ok r, s2))
      ∨ (∃ e s2, Index_call_method s i name args sem dec
          = .ok (.error (.LuaError e), s2))
      ∨ (∃ e s2, Index_call_method s i name args sem dec
          = .ok (.error (.PushError e), s2))
      ∨ (∃ m, Index_call_method s i name args sem dec = .panic m))
    ∧ (∀ (ρ E : Type) (s : LuaSt) (i : Nat) (name : String)
        (avs : List LuaValue) (m : String) (dec : Nat → LuaSt → Option ρ)
        (cidx : Nat) (s1 : LuaSt),
      imp_try_get dec_callable s i (.str name) = .ok (.ok cidx, s1) →
      ∃ s2, Index_call_method (E := E) s i name (.ok avs)
          (fun _ _ l => .raise m l) dec
        = .ok (.error (.LuaError (.ExecutionError m)), s2)) := by
  refine ⟨?_, ?_, ?_⟩
  · intro ρ E s i name args sem dec e s1 h
    simp only [Index_call_method]
    rw [h]
  · intro ρ E s i name args sem dec cidx s1 h
    simp only [Index_call_method, h]
    rcases hc : imp_call s1 cidx (args.map fun avs => s1.absGet i :: avs) sem dec
      with ⟨a, s2⟩ | m
    · rcases a with ce | r
      · rcases ce with e | e
        · exact .inr (.inl ⟨e, s2, rfl⟩)
        · exact .inr (.inr (.inl ⟨e, s2, rfl⟩))
      · exact .inl ⟨r, s2, rfl⟩
    · exact .inr (.inr (.inr ⟨m, rfl⟩))
  · intro ρ E s i name avs m dec cidx s1 h
    simp only [Index_call_method, h]
    exact ⟨_, rfl⟩

/-- Demonstration at a concrete input: the field `f` resolves to a
callable, and when the VM raises "boom" during the invocation the result
is `LuaError (ExecutionError "boom")`, not `NoSuchMethod`. -/
theorem call_method_error_discipline_witness :
    ∃ s2, Index_call_method (ρ := Unit) (E := Unit) stTabF 1 "f" (.ok [])
        (fun _ _ l => .raise "boom" l) (fun _ _ => none)
      = .ok (.error (.LuaError (.ExecutionError "boom")), s2) :=
  call_method_error_discipline.2.2 Unit Unit stTabF 1 "f" [] "boom"
    (fun _ _ => none) 2 _ rfl

/-- Fixture: a table whose metatable chains `__index` back to the table
itself, so a lookup of an absent key loops and the VM raises inside the
protected call. -/
def stLoop : LuaSt :=
  ⟨[.table 0], [(0, ⟨[], some 1⟩), (1, ⟨[(.str "__index", .table 0)], none⟩)],
   [], 0, []⟩

/-- Claim C1 is violated by the code: when the VM raises inside the
protected call, both `imp::try_get` and `imp::try_checked_set` return
early (`return Err((this, e))` resp. `.map_err(Err)?`), skipping the
`luaL_unref` calls, so the staged registry handles leak: the failed `get`
leaves its two staged handles (K and T) live, the failed `set` leaves all
three (V, K and T) live; running the operation in a loop grows the
registry without bound. -/
theorem registry_handles_leak_on_vm_raise :
    (∃ s1, imp_try_get (fun _ => (none : Option Unit)) stLoop 1 (.str "x")
        = .ok (.error (.ExecutionError "loop in gettable"), s1)
      ∧ s1.regLive = stLoop.regLive + 2)
    ∧ (∃ s1, imp_try_checked_set (K := Unit) (V := Unit) stNum 1
          (.ok (.str "k")) (.ok (.number 1))
        = .ok (.error (.error
            (.ExecutionError "attempt to index a number value")), s1)
      ∧ s1.regLive = stNum.regLive + 3) :=
  ⟨⟨_, rfl, rfl⟩, ⟨_, rfl, rfl⟩⟩

theorem pushList_gettop (l : List LuaValue) (s : LuaSt) :
    (pushList s l).gettop = s.gettop + l.length := by
  induction l generalizing s with
  | nil => simp [pushList]
  | cons v vs ih => simp [pushList, ih, push_gettop]; omega

theorem readTopString_push_str (s : LuaSt) (m : String) :
    readTopString (s.push (.str m)) = some (m, s) := by
  simp [readTopString, LuaSt.push, luaToString]

theorem lua_pcall_cases (s : LuaSt) (n : Nat) (sem : CallSem) :
    (∃ (rs : List LuaValue) (s2 : LuaSt), lua_pcall s n sem = (0, pushList s2 rs)
      ∧ s2.gettop = s.gettop - (n + 1))
    ∨ (∃ (m : String) (s2 : LuaSt), lua_pcall s n sem = (LUA_ERRRUN, s2.push (.str m))
      ∧ s2.gettop = s.gettop - (n + 1))
    ∨ (∃ s2 : LuaSt, lua_pcall s n sem = (LUA_ERRMEM, s2)
      ∧ s2.gettop = s.gettop - (n + 1)) := by
  simp only [lua_pcall]
  rcases hsem : sem ((s.stack.get? n).getD .nil) ((s.stack.take n).reverse)
      (s.popN (n + 1)) with ⟨rs, s2⟩ | ⟨m, s2⟩ | _
  · exact .inl ⟨rs, { s2 with stack := (s.popN (n + 1)).stack },
      rfl, by simp [LuaSt.gettop, LuaSt.popN]⟩
  · exact .inr (.inl ⟨m, { s2 with stack := (s.popN (n + 1)).stack },
      rfl, by simp [LuaSt.gettop, LuaSt.popN]⟩)
  · exact .inr (.inr ⟨s.popN (n + 1), rfl, by simp [LuaSt.gettop, LuaSt.popN]⟩)

/-- Counterexample to claim C2 as stated: a failed `call` does not always
leave the stack at its prior depth — when pushing the arguments fails,
the already-pushed copy of the callable is left behind, so the failed
operation leaves one extra slot. -/
theorem call_push_error_leaves_callable_copy :
    ∃ s1, imp_call (ρ := Unit) (E := Unit) stTab 1 (.error ())
        (fun _ _ l => .ok [] l) (fun _ _ => none)
      = .ok (.error (.PushError ()), s1) ∧ s1.gettop = stTab.gettop + 1 :=
  ⟨_, rfl, rfl⟩

/-- Claim C2 (amended): net stack depth after each operation equals the
depth before plus exactly what the operation hands to the caller — for
`get`: one newly owned slot on success and zero on any failure; for
`set`: zero on every outcome; for `call`: the `N` slots of the result
guard on success, zero on an execution error (the error-message slot is
consumed internally and never leaked) and zero on a wrong-type decode —
except on the argument-push-failure path of `call`, where the pushed copy
of the callable remains and the depth grows by one. -/
theorem stack_balance :
    (∀ (ρ : Type) (dec : LuaSt → Option ρ) (s : LuaSt) (i : Nat) (k : LuaValue),
      match imp_try_get dec s i k with
      | .ok (.ok _, s1) => s1.gettop = s.gettop + 1
      | .ok (.error _, s1) => s1.gettop = s.gettop
      | .panic _ => False)
    ∧ (∀ (K V : Type) (s : LuaSt) (i : Nat) (kx : Except K LuaValue)
        (vx : Except V LuaValue),
      match imp_try_checked_set s i kx vx with
      | .ok (_, s1) => s1.gettop = s.gettop
      | .panic _ => False)
    ∧ (∀ (ρ E : Type) (s : LuaSt) (i : Nat) (args : Except E (List LuaValue))
        (sem : CallSem) (dec : Nat → LuaSt → Option ρ),
      match imp_call s i args sem dec with
      | .ok (.ok (_, nr), s1) => s1.gettop = s.gettop + nr
      | .ok (.error (.PushError _), s1) => s1.gettop = s.gettop + 1
      | .ok (.error (.LuaError _), s1) => s1.gettop = s.gettop
      | .panic _ => True) := by
  refine ⟨?_, ?_, ?_⟩
  · intro ρ dec s i k
    have hstage : ((luaL_ref (api_pushvalue i (luaL_ref (api_push k s)).2)).2).gettop
        = s.gettop := by
      simp [luaL_ref_gettop, api_pushvalue_gettop, api_push_gettop]
    simp only [imp_try_get]
    rcases protected_call_cases_noOom
        ((luaL_ref (api_pushvalue i (luaL_ref (api_push k s)).2)).2)
        (tryGetBody (luaL_ref (api_pushvalue i (luaL_ref (api_push k s)).2)).1
          (luaL_ref (api_push k s)).1)
        (fun l => tryGetBody_no_oom _ _ l)
      with ⟨r, s1, hpc, htop⟩ | ⟨m, s1, hpc, htop⟩
    · simp only [hpc]
      rcases hdec : dec (regGet r s1) with _ | r1 <;> simp only [hdec] <;>
        simp [luaL_unref_gettop, regGet_gettop, popN_gettop, htop, hstage]
    · simp only [hpc]
      rw [htop, hstage]
  · intro K V s i kx vx
    rcases vx with e | vv
    · simp only [imp_try_checked_set]
    · rcases kx with e | kv
      · simp only [imp_try_checked_set]
        simp [luaL_ref_gettop, api_push_gettop]
      · have hstage :
            ((luaL_ref (api_pushvalue i
              (luaL_ref (api_push kv (luaL_ref (api_push vv s)).2)).2)).2).gettop
            = s.gettop := by
          simp [luaL_ref_gettop, api_pushvalue_gettop, api_push_gettop]
        simp only [imp_try_checked_set]
        rcases protected_call_cases_noOom
            ((luaL_ref (api_pushvalue i
              (luaL_ref (api_push kv (luaL_ref (api_push vv s)).2)).2)).2)
            (trySetBody
              (luaL_ref (api_pushvalue i
                (luaL_ref (api_push kv (luaL_ref (api_push vv s)).2)).2)).1
              (luaL_ref (api_push kv (luaL_ref (api_push vv s)).2)).1
              (luaL_ref (api_push vv s)).1)
            (fun l => trySetBody_no_oom _ _ _ l)
          with ⟨r, s1, hpc, htop⟩ | ⟨m, s1, hpc, htop⟩ <;> simp only [hpc] <;>
          simp [luaL_unref_gettop, htop, hstage]
  · intro ρ E s i args sem dec
    simp only [imp_call]
    rcases args with e | avs
    · simp [api_pushvalue_gettop]
    · have hpv := api_pushvalue_gettop i s
      have hargs := pushList_gettop avs (api_pushvalue i s)
      rcases lua_pcall_cases (pushList (api_pushvalue i s) avs) avs.length sem
        with ⟨rs, s2, hpc, htop⟩ | ⟨m, s2, hpc, htop⟩ | ⟨s2, hpc, htop⟩ <;>
        simp only [hpc, lua_pcall_dispatch]
      · have hrs := pushList_gettop rs s2
        simp only [LUA_ERRMEM, LUA_ERRRUN]
        rcases hdec : dec ((pushList s2 rs).gettop - s.gettop) (pushList s2 rs)
          with _ | r1 <;>
          simp [hdec, popN_gettop] <;> omega
      · simp only [LUA_ERRMEM, LUA_ERRRUN]
        simp [readTopString_push_str]
        omega
      · simp [LUA_ERRMEM]
